import Mathlib

/-!
Shallow embedding of the DocumentPortal storage layer (server/storage.ts) and the
document routes (the express route registration module), together with proofs of
the specification's claims about them.

Conventions of the embedding:
* JS `Map` objects are association lists in insertion order; `Map.set` replaces the
  value of an existing key in place and appends fresh keys, `Map.delete` removes the
  entry, `Map` iteration follows insertion order.
* Byte buffers are `List Nat`.
* `Date.now()` / `new Date()` values are passed in as explicit `now : Nat` arguments.
* A field typed `string | null | undefined` in TS becomes `Option String`; rendering
  an absent value in a template literal gives the text "undefined".
-/

namespace DocPortal

/-- Byte buffer contents of a stored file. -/
abbrev Buffer := List Nat

/-- Replace the first entry with the given key, else append: JS `Map.set`. -/
def mapSet {α β : Type} [DecidableEq α] : List (α × β) → α → β → List (α × β)
  | [], k, v => [(k, v)]
  | e :: rest, k, v => if e.1 = k then (k, v) :: rest else e :: mapSet rest k v

/-- Look up a key: JS `Map.get` / `Map.has`. -/
def mapLookup {α β : Type} [DecidableEq α] : List (α × β) → α → Option β
  | [], _ => none
  | e :: rest, k => if e.1 = k then some e.2 else mapLookup rest k

/-- Remove the entry with the given key: JS `Map.delete`. -/
def mapDelete {α β : Type} [DecidableEq α] : List (α × β) → α → List (α × β)
  | [], _ => []
  | e :: rest, k => if e.1 = k then mapDelete rest k else e :: mapDelete rest k

/-- Is the first char list an initial segment of the second? -/
def chStarts : List Char → List Char → Bool
  | [], _ => true
  | _ :: _, [] => false
  | a :: xs, b :: ys => a == b && chStarts xs ys

/-- Does the second char list contain the first as a contiguous run? -/
def chHasSub (sub : List Char) : List Char → Bool
  | [] => sub.isEmpty
  | c :: rest => chStarts sub (c :: rest) || chHasSub sub rest

/-- JS `String.prototype.startsWith`. -/
def strStartsWith (s pat : String) : Bool := chStarts pat.data s.data

/-- JS `String.prototype.endsWith`. -/
def strEndsWith (s pat : String) : Bool := chStarts pat.data.reverse s.data.reverse

/-- JS `String.prototype.includes`. -/
def strContains (s pat : String) : Bool := chHasSub pat.data s.data

/-- Node `path.basename`: the part after the last slash (no trailing-slash inputs occur). -/
def basename (p : String) : String :=
  String.mk ((p.data.reverse.takeWhile (fun c => c != '/')).reverse)

/-- User record (shared/schema.ts `users`). -/
structure User where
  id : Nat
  username : String
  password : String
deriving DecidableEq

/-- Registry record (shared/schema.ts `documents`, `Document = typeof documents.$inferSelect`).
`status` is declared `text` with a declarative default of "uploaded" at the database layer;
`MemStorage` never consults that default, so an unset status stays unset (`none`). -/
structure Document where
  id : Nat
  name : String
  originalName : String
  mimeType : String
  size : Nat
  path : String
  uploadedAt : Nat
  status : Option String
  processedPath : Option String
deriving DecidableEq, Inhabited

/-- Insert-side record (shared/schema.ts `insertDocumentSchema`): `id` and `uploadedAt`
omitted, `status` optional, `processedPath` nullable-optional. -/
structure InsertDocument where
  name : String
  originalName : String
  mimeType : String
  size : Nat
  path : String
  status : Option String
  processedPath : Option String
deriving DecidableEq

/-- The mime-type allow-list SUPPORTED_FILE_TYPES from shared/schema.ts. -/
def SUPPORTED_FILE_TYPES : List String :=
  [ "application/pdf",
    "application/msword",
    "application/vnd.openxmlformats-officedocument.wordprocessingml.document",
    "application/vnd.ms-excel",
    "application/vnd.openxmlformats-officedocument.spreadsheetml.sheet",
    "application/vnd.ms-powerpoint",
    "application/vnd.openxmlformats-officedocument.presentationml.presentation",
    "text/plain",
    "image/jpeg",
    "image/png" ]

/-- MAX_FILE_SIZE from shared/schema.ts (10MB; multer aborts larger uploads). -/
def MAX_FILE_SIZE : Nat := 10 * 1024 * 1024

/-- The in-memory storage singleton's state (server/storage.ts `MemStorage`). -/
structure MemStorage where
  users : List (Nat × User)
  documents : List (Nat × Document)
  fileContents : List (String × Buffer)
  currentUserId : Nat
  currentDocumentId : Nat
deriving DecidableEq

/-- The state built by the `MemStorage` constructor. -/
def initialStorage : MemStorage :=
  { users := [], documents := [], fileContents := [], currentUserId := 1, currentDocumentId := 1 }

/-- MemStorage.getDocument. -/
def getDocument (s : MemStorage) (id : Nat) : Option Document :=
  mapLookup s.documents id

/-- MemStorage.createDocument: assigns the next id, stamps `uploadedAt` (the ambient clock is
passed as `now`), and stores the spread of the insert record; no status default is applied. -/
def createDocument (s : MemStorage) (insertDocument : InsertDocument) (now : Nat) :
    Document × MemStorage :=
  let id := s.currentDocumentId
  let document : Document :=
    { id := id
      name := insertDocument.name
      originalName := insertDocument.originalName
      mimeType := insertDocument.mimeType
      size := insertDocument.size
      path := insertDocument.path
      uploadedAt := now
      status := insertDocument.status
      processedPath := insertDocument.processedPath }
  (document, { s with documents := mapSet s.documents id document,
                      currentDocumentId := s.currentDocumentId + 1 })

/-- MemStorage.deleteDocument: removes the blob at `path`, the blob at `processedPath` when
that field is truthy (non-null, non-empty), and the registry record. -/
def deleteDocument (s : MemStorage) (id : Nat) : Bool × MemStorage :=
  match mapLookup s.documents id with
  | none => (false, s)
  | some document =>
    let fc1 := mapDelete s.fileContents document.path
    let fc2 := match document.processedPath with
      | some pp => if pp = "" then fc1 else mapDelete fc1 pp
      | none => fc1
    (true, { s with fileContents := fc2, documents := mapDelete s.documents id })

/-- MemStorage.saveFile: classifies the filename and stores the buffer under a virtual path
in the results or input namespace; returns the chosen virtual path. -/
def saveFile (s : MemStorage) (originalName : String) (fileBuffer : Buffer) :
    String × MemStorage :=
  let isFormDocument := strContains originalName "-form.docx"
  let isProcessedTemplate := strContains originalName "template_processed"
  let virtualPath :=
    if isFormDocument || isProcessedTemplate then "memory://results/" ++ originalName
    else "memory://input/" ++ originalName
  (virtualPath, { s with fileContents := mapSet s.fileContents virtualPath fileBuffer })

/-- The path normalization at the top of MemStorage.getFile: rewrite the three legacy
namespace spellings to the canonical memory:// ones, in the source's order. -/
def normalizePath (p : String) : String :=
  let p1 := if strStartsWith p "documents/output/"
            then "memory://results/" ++ basename p else p
  let p2 := if strStartsWith p1 "documents/input/"
            then "memory://input/" ++ basename p1 else p1
  if strStartsWith p2 "Results/" then "memory://results/" ++ basename p2 else p2

/-- MemStorage.getFile: empty-path guard, namespace normalization, exact lookup, then a scan
for any stored path ending with the requested basename, then the processed-file fallback. -/
def getFile (s : MemStorage) (filePath : String) : Option Buffer :=
  if filePath = "" then none
  else
    let normalizedPath := normalizePath filePath
    let fileName := basename normalizedPath
    match mapLookup s.fileContents normalizedPath with
    | some buf => some buf
    | none =>
      match s.fileContents.find? (fun e => strEndsWith e.1 fileName) with
      | some e => some e.2
      | none =>
        if strContains fileName "-form.docx" || strContains fileName "_processed" then
          match s.fileContents.find?
              (fun e => strContains e.1 "-form.docx" || strContains e.1 "_processed") with
          | some e => some e.2
          | none => none
        else none

/-- MemStorage.updateDocumentStatus: unconditional overwrite of `status`. -/
def updateDocumentStatus (s : MemStorage) (id : Nat) (status : String) : Bool × MemStorage :=
  match mapLookup s.documents id with
  | none => (false, s)
  | some document =>
    (true, { s with documents := mapSet s.documents id ({ document with status := some status }) })

/-- MemStorage.updateProcessedDocument: sets status and processedPath in one replace,
rewriting a legacy documents/output processed path to the canonical spelling. -/
def updateProcessedDocument (s : MemStorage) (id : Nat) (status : String)
    (processedPath : String) : Bool × MemStorage :=
  match mapLookup s.documents id with
  | none => (false, s)
  | some document =>
    let pp := if processedPath ≠ "" ∧ strStartsWith processedPath "documents/output/"
              then "memory://results/" ++ basename processedPath else processedPath
    let updatedDocument := { document with status := some status, processedPath := some pp }
    (true, { s with documents := mapSet s.documents id updatedDocument })

/-- MemStorage.clearInputAndOutputDirectories (the retention sweep): drop every input and
results blob, clear the registry, and reset the document id counter to 1. -/
def clearInputAndOutputDirectories (s : MemStorage) : MemStorage :=
  let fc1 := s.fileContents.filter (fun e => ¬ strStartsWith e.1 "memory://input/")
  let fc2 := fc1.filter (fun e => ¬ strStartsWith e.1 "memory://results/")
  { s with fileContents := fc2, documents := [], currentDocumentId := 1 }

/-- An HTTP response abstracted to its status code and its JSON `message` field. -/
structure Resp where
  status : Nat
  message : String
deriving DecidableEq

/-- Result of a state-mutating route handler: the storage state after the request plus
the response sent. -/
structure RouteResult where
  store : MemStorage
  resp : Resp
deriving DecidableEq

/-- Render a Document's status the way a JS template literal does; an unset (undefined)
status renders as the text "undefined". -/
def statusText : Option String → String
  | some t => t
  | none => "undefined"

/-- Outcome of the awaited call to the external processing service in the process route:
the fetch resolved ok, resolved non-ok (its JSON `error` field, if any), or the await threw
(connection refused / fetch failure / timeout / any other exception), with its message. -/
inductive ExtOutcome
  | ok
  | notOk (errField : Option String)
  | thrown (connRefused : Bool) (msg : String)
deriving DecidableEq

/-- What POST /api/documents/:id/process does before its first suspension point (the awaited
external fetch): either it replies without touching the store, or the guard passed and the
status was synchronously set to processing. -/
inductive Phase1Result
  | reply (resp : Resp)
  | dispatched (s1 : MemStorage)
deriving DecidableEq

/-- The 400 state-conflict message of the process route, naming the current status. -/
def conflictMsg (st : Option String) : String :=
  "Document cannot be processed because its status is \u0027" ++ statusText st
    ++ "\u0027 instead of \u0027pending\u0027 or \u0027uploaded\u0027"

/-- The pre-suspension part of POST /api/documents/:id/process: 404 on a missing document,
a 400 state-conflict naming the current status unless it is pending, else the synchronous
transition to processing. -/
def processPhase1 (s : MemStorage) (id : Nat) : Phase1Result :=
  match getDocument s id with
  | none => Phase1Result.reply { status := 404, message := "Document not found" }
  | some document =>
    if document.status ≠ some "pending" then
      Phase1Result.reply { status := 400, message := conflictMsg document.status }
    else
      Phase1Result.dispatched (updateDocumentStatus s id "processing").2

/-- The error path shared by the inner and outer catch blocks of the process route: set the
status to error, answer 500 with the connection message for refused/failed fetches, or rethrow
into the outer catch (which sets error status again) for anything else. -/
def processErrorPath (s1 : MemStorage) (id : Nat) (refused : Bool) (msg : String) :
    RouteResult :=
  let s2 := (updateDocumentStatus s1 id "error").2
  if refused || strContains msg "fetch failed" then
    let connMsg := "Failed to connect to processing service. Make sure main.py is running."
    { store := s2, resp := { status := 500, message := connMsg } }
  else
    let s3 := (updateDocumentStatus s2 id "error").2
    { store := s3, resp := { status := 500, message := "Failed to process document" } }

/-- The post-suspension part of POST /api/documents/:id/process: 200 on success, otherwise
the error path; a non-ok response is turned into a thrown "Python server error" exception. -/
def processPhase2 (s1 : MemStorage) (id : Nat) (ext : ExtOutcome) : RouteResult :=
  match ext with
  | ExtOutcome.ok =>
    let okMsg := "Document processing started successfully"
    { store := s1, resp := { status := 200, message := okMsg } }
  | ExtOutcome.notOk errField =>
    processErrorPath s1 id false ("Python server error: " ++ errField.getD "Unknown error")
  | ExtOutcome.thrown refused msg => processErrorPath s1 id refused msg

/-- POST /api/documents/:id/process in full, with the external call's outcome as a parameter. -/
def processDocumentRoute (s : MemStorage) (id : Nat) (ext : ExtOutcome) : RouteResult :=
  match processPhase1 s id with
  | Phase1Result.reply r => { store := s, resp := r }
  | Phase1Result.dispatched s1 => processPhase2 s1 id ext

/-- The multer-provided upload: original filename, mime type (already checked against the
allow-list by the file filter) and the in-memory byte buffer; multer sets `size` to the
buffer's byte length. -/
structure UploadedFile where
  originalname : String
  mimetype : String
  buffer : Buffer
deriving DecidableEq

/-- Result of POST /api/documents: state, response, and the created Document if any. -/
structure UploadResult where
  store : MemStorage
  resp : Resp
  doc : Option Document
deriving DecidableEq

/-- POST /api/documents: save the buffer under a uniquified filename and create a pending
registry record whose size is the buffer length. The zod safeParse of this already well-typed
record always succeeds (every check in insertDocumentSchema is a typing check), so the
validation-failure reply is unreachable here. `uniquePrefix` stands for the
Date.now()-and-random prefix, `now` for the creation clock. -/
def uploadRoute (s : MemStorage) (file : UploadedFile) (uniquePrefix : String) (now : Nat) :
    UploadResult :=
  let fileName := uniquePrefix ++ "-" ++ file.originalname
  let saved := saveFile s fileName file.buffer
  let documentData : InsertDocument :=
    { name := file.originalname
      originalName := file.originalname
      mimeType := file.mimetype
      size := file.buffer.length
      path := saved.1
      status := some "pending"
      processedPath := none }
  let created := createDocument saved.2 documentData now
  { store := created.2
    resp := { status := 201, message := "Document uploaded successfully" }
    doc := some created.1 }

/-- Result of GET /api/documents/:id/download: the sent file (content type, attachment
filename, bytes) or an error response. -/
inductive DownloadResult
  | file (contentType : String) (filename : String) (bytes : Buffer)
  | err (status : Nat) (message : String)
deriving DecidableEq

/-- GET /api/documents/:id/download. For a missing record with id below 1000 the route
answers 404; for id at least 1000 it calls fs.readdirSync on the virtual "memory://output"
directory, which throws (no such physical directory), so the catch answers 500. -/
def downloadRoute (s : MemStorage) (id : Nat) : DownloadResult :=
  match getDocument s id with
  | none =>
    if id ≥ 1000 then DownloadResult.err 500 "Failed to download document"
    else DownloadResult.err 404 "Document not found"
  | some document =>
    match getFile s document.path with
    | none => DownloadResult.err 404 "File not found"
    | some fileBuffer => DownloadResult.file document.mimeType document.originalName fileBuffer

/-- DELETE /api/documents/:id. -/
def deleteRoute (s : MemStorage) (id : Nat) : RouteResult :=
  let r := deleteDocument s id
  if r.1 then { store := r.2, resp := { status := 200, message := "Document deleted successfully" } }
  else
    let missMsg := "Document not found or could not be deleted"
    { store := r.2, resp := { status := 404, message := missMsg } }

/-- The valid statuses accepted by POST /api/documents/:id/set-status. -/
def validStatuses : List String := ["pending", "processing", "processed", "error"]

/-- POST /api/documents/:id/set-status: requires a truthy status in the valid list and an
existing document, then overwrites the status unconditionally. -/
def setStatusRoute (s : MemStorage) (id : Nat) (status : Option String) : RouteResult :=
  match status with
  | none => { store := s, resp := { status := 400, message := "Status is required" } }
  | some st =>
    if st = "" then { store := s, resp := { status := 400, message := "Status is required" } }
    else if ¬ (validStatuses.contains st) then
      let invMsg := "Invalid status. Valid values are: pending, processing, processed, error"
      { store := s, resp := { status := 400, message := invMsg } }
    else
      match getDocument s id with
      | none => { store := s, resp := { status := 404, message := "Document not found" } }
      | some _ =>
        let okMsg := "Document status updated to \u0027" ++ st ++ "\u0027 successfully"
        { store := (updateDocumentStatus s id st).2, resp := { status := 200, message := okMsg } }

/-- A storage-mutating operation, for stating invariants over operation sequences. -/
inductive Op
  | create (ins : InsertDocument) (now : Nat)
  | deleteDoc (id : Nat)
  | setStatus (id : Nat) (st : String)
  | updateProcessed (id : Nat) (st : String) (pp : String)
  | save (name : String) (buf : Buffer)
  | sweep
deriving DecidableEq

/-- Is the operation the retention sweep? -/
def Op.isSweep : Op → Bool
  | Op.sweep => true
  | _ => false

/-- Apply one operation to the storage state. -/
def applyOp (s : MemStorage) : Op → MemStorage
  | Op.create ins now => (createDocument s ins now).2
  | Op.deleteDoc id => (deleteDocument s id).2
  | Op.setStatus id st => (updateDocumentStatus s id st).2
  | Op.updateProcessed id st pp => (updateProcessedDocument s id st pp).2
  | Op.save n b => (saveFile s n b).2
  | Op.sweep => clearInputAndOutputDirectories s

/-- Run a sequence of operations left to right. -/
def runOps (s : MemStorage) : List Op → MemStorage
  | [] => s
  | op :: rest => runOps (applyOp s op) rest

/-- The document ids handed out by the create operations of a run, in order. -/
def createdIds (s : MemStorage) : List Op → List Nat
  | [] => []
  | Op.create ins now :: rest =>
    (createDocument s ins now).1.id :: createdIds (createDocument s ins now).2 rest
  | Op.deleteDoc id :: rest => createdIds (applyOp s (Op.deleteDoc id)) rest
  | Op.setStatus id st :: rest => createdIds (applyOp s (Op.setStatus id st)) rest
  | Op.updateProcessed id st pp :: rest =>
    createdIds (applyOp s (Op.updateProcessed id st pp)) rest
  | Op.save n b :: rest => createdIds (applyOp s (Op.save n b)) rest
  | Op.sweep :: rest => createdIds (applyOp s Op.sweep) rest

/-- How many create operations a sequence contains. -/
def countCreates : List Op → Nat
  | [] => 0
  | Op.create _ _ :: rest => countCreates rest + 1
  | _ :: rest => countCreates rest

/-- Every registry key is below the id counter. -/
def idsBounded (s : MemStorage) : Prop :=
  ∀ p ∈ s.documents, p.1 < s.currentDocumentId

/-! Concrete fixture states used to instantiate the claims on explicit inputs. -/

/-- A pending document as produced by an upload of five bytes of report.pdf. -/
def docPending : Document :=
  { id := 1, name := "report.pdf", originalName := "report.pdf",
    mimeType := "application/pdf", size := 5, path := "memory://input/170-report.pdf",
    uploadedAt := 0, status := some "pending", processedPath := none }

/-- The same document after a failed processing run. -/
def docError : Document := { docPending with status := some "error" }

/-- A store holding the pending document and its blob. -/
def storePending : MemStorage :=
  { initialStorage with
    documents := [(1, docPending)],
    fileContents := [("memory://input/170-report.pdf", [1, 2, 3, 4, 5])],
    currentDocumentId := 2 }

/-- A store holding the errored document and its blob. -/
def storeError : MemStorage := { storePending with documents := [(1, docError)] }

/-- A processed document carrying both a source blob and a processed blob. -/
def docProcessed : Document :=
  { docPending with
      status := some "processed"
      processedPath := some "memory://results/170-report-form.docx" }

/-- A store holding the processed document together with both of its blobs. -/
def storeProcessed : MemStorage :=
  { initialStorage with
    documents := [(1, docProcessed)],
    fileContents := [("memory://input/170-report.pdf", [1, 2]),
                     ("memory://results/170-report-form.docx", [3, 4])],
    currentDocumentId := 2 }

/-- The multer upload of five bytes of report.pdf. -/
def fileReport : UploadedFile :=
  { originalname := "report.pdf", mimetype := "application/pdf", buffer := [1, 2, 3, 4, 5] }

/-- An insert record with an explicit pending status. -/
def insPending : InsertDocument :=
  { name := "a.pdf", originalName := "a.pdf", mimeType := "application/pdf", size := 0,
    path := "memory://input/a.pdf", status := some "pending", processedPath := none }

/-- An insert record that passes schema validation and has no status set. -/
def insNoStatus : InsertDocument := { insPending with status := none }

/-- An operation sequence with a sweep between two creates. -/
def opsAcrossSweep : List Op := [Op.create insPending 0, Op.sweep, Op.create insPending 1]

/-- A sweep-free operation sequence with two creates. -/
def opsNoSweep : List Op :=
  [Op.create insPending 0, Op.setStatus 1 "processed", Op.save "a.txt" [1], Op.create insPending 1]

/-- A store whose only blob is named my-report.docx. -/
def storeSuffix : MemStorage :=
  { initialStorage with fileContents := [("memory://input/my-report.docx", [1, 2, 3])] }

/-- A store holding two pending documents. -/
def storeTwoDocs : MemStorage :=
  { initialStorage with
    documents := [(1, docPending), (2, { docPending with id := 2 })],
    currentDocumentId := 3 }

/-- The store produced by uploading report.pdf into the fresh store. -/
def storeAfterUpload : MemStorage := (uploadRoute initialStorage fileReport "170" 0).store

/-- The previous store after the set-status endpoint moved document 1 to error. -/
def storeAfterError : MemStorage := (setStatusRoute storeAfterUpload 1 (some "error")).store

/-- The previous store after the set-status endpoint moved document 1 back to pending. -/
def storeBackToPending : MemStorage :=
  (setStatusRoute storeAfterError 1 (some "pending")).store

/-! Helper lemmas about the association-list model of JS `Map` and about strings. -/

theorem mapLookup_mapSet_self {α β : Type} [DecidableEq α] (m : List (α × β)) (k : α) (v : β) :
    mapLookup (mapSet m k v) k = some v := by
  induction m with
  | nil => simp [mapSet, mapLookup]
  | cons e rest ih =>
    by_cases h : e.1 = k
    · simp [mapSet, h, mapLookup]
    · simp [mapSet, h, mapLookup, ih]

theorem mapLookup_mapSet_ne {α β : Type} [DecidableEq α] (m : List (α × β)) (k j : α) (v : β)
    (h : j ≠ k) : mapLookup (mapSet m k v) j = mapLookup m j := by
  induction m with
  | nil => simp [mapSet, mapLookup, Ne.symm h]
  | cons e rest ih =>
    by_cases he : e.1 = k
    · simp [mapSet, he, mapLookup, Ne.symm h]
    · simp [mapSet, he, mapLookup, ih]

theorem mapLookup_mapDelete_self {α β : Type} [DecidableEq α] (m : List (α × β)) (k : α) :
    mapLookup (mapDelete m k) k = none := by
  induction m with
  | nil => simp [mapDelete, mapLookup]
  | cons e rest ih =>
    by_cases h : e.1 = k
    · simp [mapDelete, h, ih]
    · simp [mapDelete, h, mapLookup, ih]

theorem mapLookup_mapDelete_ne {α β : Type} [DecidableEq α] (m : List (α × β)) (k j : α)
    (h : j ≠ k) : mapLookup (mapDelete m k) j = mapLookup m j := by
  induction m with
  | nil => simp [mapDelete]
  | cons e rest ih =>
    by_cases he : e.1 = k
    · simp [mapDelete, he, mapLookup, ih, Ne.symm h]
    · simp [mapDelete, he, mapLookup, ih]

theorem mapLookup_mem {α β : Type} [DecidableEq α] (m : List (α × β)) (k : α) (v : β)
    (h : mapLookup m k = some v) : (k, v) ∈ m := by
  induction m with
  | nil => simp [mapLookup] at h
  | cons e rest ih =>
    by_cases he : e.1 = k
    · simp only [mapLookup, if_pos he, Option.some.injEq] at h
      have hekv : e = (k, v) := Prod.ext he h
      rw [← hekv]
      exact List.mem_cons_self e rest
    · simp only [mapLookup, if_neg he] at h
      exact List.mem_cons_of_mem e (ih h)

theorem mem_mapSet {α β : Type} [DecidableEq α] (m : List (α × β)) (k : α) (v : β)
    (p : α × β) (h : p ∈ mapSet m k v) : p = (k, v) ∨ p ∈ m := by
  induction m with
  | nil =>
    simp only [mapSet, List.mem_singleton] at h
    exact Or.inl h
  | cons e rest ih =>
    by_cases he : e.1 = k
    · rw [mapSet, if_pos he] at h
      rcases List.mem_cons.mp h with h2 | h2
      · exact Or.inl h2
      · exact Or.inr (List.mem_cons_of_mem e h2)
    · rw [mapSet, if_neg he] at h
      rcases List.mem_cons.mp h with h2 | h2
      · exact Or.inr (h2 ▸ List.mem_cons_self e rest)
      · rcases ih h2 with h3 | h3
        · exact Or.inl h3
        · exact Or.inr (List.mem_cons_of_mem e h3)

theorem mem_mapDelete {α β : Type} [DecidableEq α] (m : List (α × β)) (k : α)
    (p : α × β) (h : p ∈ mapDelete m k) : p ∈ m := by
  induction m with
  | nil => simp [mapDelete] at h
  | cons e rest ih =>
    by_cases he : e.1 = k
    · rw [mapDelete, if_pos he] at h
      exact List.mem_cons_of_mem e (ih h)
    · rw [mapDelete, if_neg he] at h
      rcases List.mem_cons.mp h with h2 | h2
      · exact h2 ▸ List.mem_cons_self e rest
      · exact List.mem_cons_of_mem e (ih h2)

theorem mapSet_eq_append {α β : Type} [DecidableEq α] (m : List (α × β)) (k : α) (v : β)
    (h : ∀ e ∈ m, e.1 ≠ k) : mapSet m k v = m ++ [(k, v)] := by
  induction m with
  | nil => simp [mapSet]
  | cons e rest ih =>
    rw [mapSet, if_neg (h e (List.mem_cons_self e rest)), List.cons_append]
    rw [ih (fun e' he' => h e' (List.mem_cons_of_mem e he'))]

theorem mapLookup_append_left_none {α β : Type} [DecidableEq α] (m l : List (α × β)) (k : α)
    (h : ∀ e ∈ m, e.1 ≠ k) : mapLookup (m ++ l) k = mapLookup l k := by
  induction m with
  | nil => simp
  | cons e rest ih =>
    rw [List.cons_append, mapLookup, if_neg (h e (List.mem_cons_self e rest))]
    exact ih (fun e' he' => h e' (List.mem_cons_of_mem e he'))

theorem find?_append_left_none {α : Type} (m l : List α) (pred : α → Bool)
    (h : ∀ e ∈ m, pred e = false) : (m ++ l).find? pred = l.find? pred := by
  induction m with
  | nil => simp
  | cons e rest ih =>
    rw [List.cons_append, List.find?, h e (List.mem_cons_self e rest)]
    exact ih (fun e' he' => h e' (List.mem_cons_of_mem e he'))

theorem str_append_ne_empty (a b : String) (h : 0 < a.length) : a ++ b ≠ "" := by
  intro he
  have h2 := congrArg String.length he
  rw [String.length_append] at h2
  have hz : ("" : String).length = 0 := rfl
  rw [hz] at h2
  omega

/-! Helper lemmas about the storage operations themselves. -/

theorem getDocument_updateStatus_self (s : MemStorage) (id : Nat) (st : String) (doc : Document)
    (h : getDocument s id = some doc) :
    getDocument (updateDocumentStatus s id st).2 id = some { doc with status := some st } := by
  unfold getDocument at h ⊢
  unfold updateDocumentStatus
  rw [h]
  exact mapLookup_mapSet_self s.documents id _

theorem getDocument_updateStatus_ne (s : MemStorage) (id j : Nat) (st : String)
    (h : j ≠ id) : getDocument (updateDocumentStatus s id st).2 j = getDocument s j := by
  unfold getDocument updateDocumentStatus
  cases hm : mapLookup s.documents id with
  | none => rfl
  | some document => exact mapLookup_mapSet_ne s.documents id j _ h

theorem counter_updateStatus (s : MemStorage) (id : Nat) (st : String) :
    (updateDocumentStatus s id st).2.currentDocumentId = s.currentDocumentId := by
  unfold updateDocumentStatus
  cases mapLookup s.documents id <;> rfl

theorem counter_updateProcessed (s : MemStorage) (id : Nat) (st pp : String) :
    (updateProcessedDocument s id st pp).2.currentDocumentId = s.currentDocumentId := by
  unfold updateProcessedDocument
  cases mapLookup s.documents id <;> rfl

theorem counter_deleteDocument (s : MemStorage) (id : Nat) :
    (deleteDocument s id).2.currentDocumentId = s.currentDocumentId := by
  unfold deleteDocument
  cases mapLookup s.documents id <;> rfl

theorem counter_saveFile (s : MemStorage) (n : String) (b : Buffer) :
    (saveFile s n b).2.currentDocumentId = s.currentDocumentId := rfl

theorem counter_createDocument (s : MemStorage) (ins : InsertDocument) (now : Nat) :
    (createDocument s ins now).2.currentDocumentId = s.currentDocumentId + 1 := rfl

/-! The claims. -/

/-- C1: a processing request on an existing document is accepted only when its status is
pending; on any other status the route answers a 400 state-conflict whose message names the
current status and leaves the whole store, in particular the document's status, unchanged. -/
theorem c1 (s : MemStorage) (id : Nat) (ext : ExtOutcome) (doc : Document)
    (hdoc : getDocument s id = some doc) (hst : doc.status ≠ some "pending") :
    (processDocumentRoute s id ext).resp.status = 400 ∧
    (processDocumentRoute s id ext).resp.message = conflictMsg doc.status ∧
    (processDocumentRoute s id ext).store = s := by
  unfold processDocumentRoute processPhase1
  rw [hdoc]
  simp only [if_pos hst]
  exact ⟨trivial, trivial, trivial⟩

/-- Witness for C1 at a concrete store holding an errored document. -/
theorem c1_witness :
    (processDocumentRoute storeError 1 ExtOutcome.ok).resp.status = 400 ∧
    (processDocumentRoute storeError 1 ExtOutcome.ok).resp.message =
      conflictMsg docError.status ∧
    (processDocumentRoute storeError 1 ExtOutcome.ok).store = storeError :=
  c1 storeError 1 ExtOutcome.ok docError (by decide) (by decide)

/-- C2: accepting a processing request on a pending document sets the status to processing
synchronously, before the external call's outcome is consulted: the pre-suspension phase ends
dispatched, the processing status is already observable in the dispatched state, the route is
the post-suspension phase run on that state, and a second request issued at the suspension
point is rejected by the same pending-only guard. -/
theorem c2 (s : MemStorage) (id : Nat) (doc : Document)
    (hdoc : getDocument s id = some doc) (hpend : doc.status = some "pending") :
    processPhase1 s id = Phase1Result.dispatched (updateDocumentStatus s id "processing").2 ∧
    getDocument (updateDocumentStatus s id "processing").2 id =
      some { doc with status := some "processing" } ∧
    (∀ ext, processDocumentRoute s id ext =
      processPhase2 (updateDocumentStatus s id "processing").2 id ext) ∧
    processPhase1 (updateDocumentStatus s id "processing").2 id =
      Phase1Result.reply { status := 400, message := conflictMsg (some "processing") } := by
  have h1 : processPhase1 s id
      = Phase1Result.dispatched (updateDocumentStatus s id "processing").2 := by
    unfold processPhase1
    rw [hdoc]
    simp [hpend]
  have h2 := getDocument_updateStatus_self s id "processing" doc hdoc
  refine ⟨h1, h2, ?_, ?_⟩
  · intro ext
    unfold processDocumentRoute
    rw [h1]
  · unfold processPhase1
    rw [h2]
    simp [statusText]

/-- Witness for C2 at a concrete store holding a pending document. -/
theorem c2_witness :
    processPhase1 storePending 1
      = Phase1Result.dispatched (updateDocumentStatus storePending 1 "processing").2 ∧
    getDocument (updateDocumentStatus storePending 1 "processing").2 1 =
      some { docPending with status := some "processing" } ∧
    processDocumentRoute storePending 1 ExtOutcome.ok =
      processPhase2 (updateDocumentStatus storePending 1 "processing").2 1 ExtOutcome.ok ∧
    processPhase1 (updateDocumentStatus storePending 1 "processing").2 1 =
      Phase1Result.reply { status := 400, message := conflictMsg (some "processing") } :=
  have h := c2 storePending 1 docPending (by decide) (by decide)
  ⟨h.1, h.2.1, h.2.2.1 ExtOutcome.ok, h.2.2.2⟩

/-- Both catch branches of the process route answer 500 and leave the document's status at
error. -/
theorem processErrorPath_spec (s1 : MemStorage) (id : Nat) (refused : Bool) (msg : String)
    (doc1 : Document) (hd1 : getDocument s1 id = some doc1) :
    (processErrorPath s1 id refused msg).resp.status = 500 ∧
    getDocument (processErrorPath s1 id refused msg).store id =
      some { doc1 with status := some "error" } := by
  unfold processErrorPath
  have hd2 := getDocument_updateStatus_self s1 id "error" doc1 hd1
  by_cases hc : (refused || strContains msg "fetch failed") = true
  · rw [if_pos hc]
    exact ⟨rfl, hd2⟩
  · rw [if_neg hc]
    have hd3 := getDocument_updateStatus_self _ id "error" _ hd2
    exact ⟨rfl, hd3⟩

/-- C6: when the external call of an accepted processing request fails in any way (non-ok
response, refused connection, failed fetch, timeout or other exception), the document's
status ends at error and the caller still receives a 500 response. -/
theorem c6 (s : MemStorage) (id : Nat) (doc : Document) (ext : ExtOutcome)
    (hdoc : getDocument s id = some doc) (hpend : doc.status = some "pending")
    (hfail : ext ≠ ExtOutcome.ok) :
    (processDocumentRoute s id ext).resp.status = 500 ∧
    (getDocument (processDocumentRoute s id ext).store id).map (fun d => d.status) =
      some (some "error") := by
  have h1 : processPhase1 s id
      = Phase1Result.dispatched (updateDocumentStatus s id "processing").2 := by
    unfold processPhase1
    rw [hdoc]
    simp [hpend]
  have hd1 : getDocument (updateDocumentStatus s id "processing").2 id
      = some { doc with status := some "processing" } :=
    getDocument_updateStatus_self s id "processing" doc hdoc
  unfold processDocumentRoute
  rw [h1]
  cases ext with
  | ok => exact absurd rfl hfail
  | notOk errField =>
    simp only [processPhase2]
    have h := processErrorPath_spec _ id false
      ("Python server error: " ++ errField.getD "Unknown error") _ hd1
    exact ⟨h.1, by rw [h.2]; rfl⟩
  | thrown refused msg =>
    simp only [processPhase2]
    have h := processErrorPath_spec _ id refused msg _ hd1
    exact ⟨h.1, by rw [h.2]; rfl⟩

/-- Witness for C6 at a concrete store, with the external call refusing the connection. -/
theorem c6_witness :
    (processDocumentRoute storePending 1 (ExtOutcome.thrown true "connect ECONNREFUSED")).resp.status = 500 ∧
    (getDocument (processDocumentRoute storePending 1
        (ExtOutcome.thrown true "connect ECONNREFUSED")).store 1).map (fun d => d.status) =
      some (some "error") :=
  c6 storePending 1 docPending (ExtOutcome.thrown true "connect ECONNREFUSED")
    (by decide) (by decide) (by decide)

/-- C7 counterexample: an insert record that passes schema validation with no status set is
stored with no status at all, not with status pending. -/
theorem c7_counterexample :
    insNoStatus.status = none ∧
    (createDocument initialStorage insNoStatus 0).1.status ≠ some "pending" := by decide

/-- C7 amended: registry create stores and returns the record with exactly the status of the
insert record; no pending default is applied, so an unset status stays unset (the declarative
schema default "uploaded" is likewise never applied by MemStorage). -/
theorem c7_amended (s : MemStorage) (ins : InsertDocument) (now : Nat) :
    (createDocument s ins now).1.status = ins.status ∧
    (createDocument s ins now).1.id = s.currentDocumentId ∧
    getDocument (createDocument s ins now).2 s.currentDocumentId =
      some (createDocument s ins now).1 := by
  refine ⟨rfl, rfl, ?_⟩
  unfold getDocument createDocument
  exact mapLookup_mapSet_self s.documents s.currentDocumentId _

/-- C10: when the normalized path is not an exact key in the blob store, getFile serves the
buffer of the first stored entry (in insertion order) whose full path merely ends with the
requested basename, so bytes stored under a different filename can be served. -/
theorem c10 (s : MemStorage) (p : String) (e : String × Buffer)
    (hne : p ≠ "")
    (hmiss : mapLookup s.fileContents (normalizePath p) = none)
    (hfind : s.fileContents.find?
        (fun en => strEndsWith en.1 (basename (normalizePath p))) = some e) :
    getFile s p = some e.2 := by
  unfold getFile
  rw [if_neg hne]
  simp only [hmiss, hfind]

/-- Witness for C10: requesting report.docx serves the bytes stored as my-report.docx. -/
theorem c10_witness :
    mapLookup storeSuffix.fileContents (normalizePath "report.docx") = none ∧
    getFile storeSuffix "report.docx" = some [1, 2, 3] :=
  ⟨by decide,
    c10 storeSuffix "report.docx" ("memory://input/my-report.docx", [1, 2, 3])
      (by decide) (by decide) (by decide)⟩

/-- Explicit form of deleteDocument on a present id. -/
theorem deleteDocument_some (s : MemStorage) (id : Nat) (doc : Document)
    (hdoc : mapLookup s.documents id = some doc) :
    deleteDocument s id = (true,
      { s with
        fileContents := match doc.processedPath with
          | some pp => if pp = "" then mapDelete s.fileContents doc.path
                       else mapDelete (mapDelete s.fileContents doc.path) pp
          | none => mapDelete s.fileContents doc.path,
        documents := mapDelete s.documents id }) := by
  unfold deleteDocument
  rw [hdoc]

/-- C4: deleting a registered document removes its registry record and the blobs under its
path and (when set and non-empty, i.e. truthy) its processedPath, and returns true; deleting
an unknown id returns false and leaves the store untouched. -/
theorem c4 (s : MemStorage) (id : Nat) :
    (∀ doc, getDocument s id = some doc →
      (deleteDocument s id).1 = true ∧
      getDocument (deleteDocument s id).2 id = none ∧
      mapLookup (deleteDocument s id).2.fileContents doc.path = none ∧
      (∀ pp, doc.processedPath = some pp → pp ≠ "" →
        mapLookup (deleteDocument s id).2.fileContents pp = none)) ∧
    (getDocument s id = none → deleteDocument s id = (false, s)) := by
  constructor
  · intro doc hdoc
    unfold getDocument at hdoc
    rw [deleteDocument_some s id doc hdoc]
    refine ⟨rfl, mapLookup_mapDelete_self _ _, ?_, ?_⟩
    · cases hpp : doc.processedPath with
      | none => simp only [hpp]; exact mapLookup_mapDelete_self _ _
      | some pp =>
        simp only [hpp]
        by_cases hppe : pp = ""
        · rw [if_pos hppe]
          exact mapLookup_mapDelete_self _ _
        · rw [if_neg hppe]
          by_cases hpe : doc.path = pp
          · rw [hpe]
            exact mapLookup_mapDelete_self _ _
          · rw [mapLookup_mapDelete_ne _ _ _ hpe]
            exact mapLookup_mapDelete_self _ _
    · intro pp hpp hppe
      simp only [hpp]
      rw [if_neg hppe]
      exact mapLookup_mapDelete_self _ _
  · intro hnone
    unfold getDocument at hnone
    unfold deleteDocument
    rw [hnone]

/-- Witness for C4 at a store holding a processed document with both blobs present. -/
theorem c4_witness :
    (deleteDocument storeProcessed 1).1 = true ∧
    getDocument (deleteDocument storeProcessed 1).2 1 = none ∧
    mapLookup (deleteDocument storeProcessed 1).2.fileContents docProcessed.path = none ∧
    mapLookup (deleteDocument storeProcessed 1).2.fileContents
      "memory://results/170-report-form.docx" = none :=
  have h := (c4 storeProcessed 1).1 docProcessed (by decide)
  ⟨h.1, h.2.1, h.2.2.1,
    h.2.2.2 "memory://results/170-report-form.docx" (by decide) (by decide)⟩

/-- Normalization leaves canonical results paths untouched. -/
theorem normalizePath_memResults (n : String) :
    normalizePath ("memory://results/" ++ n) = "memory://results/" ++ n := rfl

/-- Normalization leaves canonical input paths untouched. -/
theorem normalizePath_memInput (n : String) :
    normalizePath ("memory://input/" ++ n) = "memory://input/" ++ n := rfl

/-- getFile hits exactly when the requested path is normalization-stable and an exact key. -/
theorem getFile_exact (s : MemStorage) (q : String) (b : Buffer)
    (hne : q ≠ "") (hnorm : normalizePath q = q)
    (hfc : mapLookup s.fileContents q = some b) :
    getFile s q = some b := by
  unfold getFile
  rw [if_neg hne]
  simp only [hnorm, hfc]

/-- The path chosen by saveFile is nonempty and normalization-stable, and the store it
returns maps that path to the saved buffer. -/
theorem saveFile_spec (s : MemStorage) (n : String) (b : Buffer) :
    (saveFile s n b).1 ≠ "" ∧
    normalizePath (saveFile s n b).1 = (saveFile s n b).1 ∧
    mapLookup (saveFile s n b).2.fileContents (saveFile s n b).1 = some b := by
  cases hform : (strContains n "-form.docx" || strContains n "template_processed") with
  | true =>
    simp only [saveFile, hform, if_true]
    exact ⟨str_append_ne_empty _ _ (by decide), normalizePath_memResults n,
      mapLookup_mapSet_self _ _ _⟩
  | false =>
    simp only [saveFile, hform, if_false]
    exact ⟨str_append_ne_empty _ _ (by decide), normalizePath_memInput n,
      mapLookup_mapSet_self _ _ _⟩

/-- C3: an accepted upload of a file with a supported mime type (and within the multer size
limit) creates a Document whose size is the byte length of the uploaded buffer, whose status
is pending and whose id is the current counter; downloading that id from the resulting store
with no intervening mutation serves back exactly the uploaded bytes. -/
theorem c3 (s : MemStorage) (file : UploadedFile) (uniquePrefix : String) (now : Nat)
    (hmime : file.mimetype ∈ SUPPORTED_FILE_TYPES)
    (hsize : file.buffer.length ≤ MAX_FILE_SIZE) :
    (uploadRoute s file uniquePrefix now).resp.status = 201 ∧
    ((uploadRoute s file uniquePrefix now).doc.map (fun d => d.size)
      = some file.buffer.length) ∧
    ((uploadRoute s file uniquePrefix now).doc.map (fun d => d.status)
      = some (some "pending")) ∧
    ((uploadRoute s file uniquePrefix now).doc.map (fun d => d.id)
      = some s.currentDocumentId) ∧
    downloadRoute (uploadRoute s file uniquePrefix now).store s.currentDocumentId =
      DownloadResult.file file.mimetype file.originalname file.buffer := by
  refine ⟨rfl, rfl, rfl, rfl, ?_⟩
  have hsv := saveFile_spec s (uniquePrefix ++ "-" ++ file.originalname) file.buffer
  unfold downloadRoute
  have hdoc : getDocument (uploadRoute s file uniquePrefix now).store s.currentDocumentId
      = some (uploadRoute s file uniquePrefix now).doc.get! := by
    unfold getDocument
    exact mapLookup_mapSet_self _ _ _
  rw [hdoc]
  have hget : getFile (uploadRoute s file uniquePrefix now).store
      (uploadRoute s file uniquePrefix now).doc.get!.path = some file.buffer :=
    getFile_exact _ _ _ hsv.1 hsv.2.1 hsv.2.2
  simp only [hget]
  rfl

/-- Witness for C3: uploading five bytes of report.pdf into the fresh store round-trips. -/
theorem c3_witness :
    (uploadRoute initialStorage fileReport "170" 0).resp.status = 201 ∧
    ((uploadRoute initialStorage fileReport "170" 0).doc.map (fun d => d.size)
      = some fileReport.buffer.length) ∧
    ((uploadRoute initialStorage fileReport "170" 0).doc.map (fun d => d.status)
      = some (some "pending")) ∧
    ((uploadRoute initialStorage fileReport "170" 0).doc.map (fun d => d.id)
      = some initialStorage.currentDocumentId) ∧
    downloadRoute (uploadRoute initialStorage fileReport "170" 0).store
        initialStorage.currentDocumentId =
      DownloadResult.file fileReport.mimetype fileReport.originalname fileReport.buffer :=
  c3 initialStorage fileReport "170" 0 (by decide) (by decide)

/-- getFile hits when the normalized request path is an exact key of the store. -/
theorem getFile_norm_hit (s : MemStorage) (p : String) (b : Buffer)
    (hne : p ≠ "") (hfc : mapLookup s.fileContents (normalizePath p) = some b) :
    getFile s p = some b := by
  unfold getFile
  rw [if_neg hne]
  simp only [hfc]

/-- C5: after saving a buffer under the results namespace with name 170000-form.docx — in a
store whose existing paths do not already end with that name, which the results-namespace
uniqueness convention guarantees — getFile returns the identical bytes for the canonical
stored path, both legacy spellings, and the bare filename. -/
theorem c5 (s : MemStorage) (buf : Buffer)
    (hfresh : ∀ e ∈ s.fileContents, strEndsWith e.1 "170000-form.docx" = false) :
    (saveFile s "170000-form.docx" buf).1 = "memory://results/170000-form.docx" ∧
    getFile (saveFile s "170000-form.docx" buf).2 "memory://results/170000-form.docx"
      = some buf ∧
    getFile (saveFile s "170000-form.docx" buf).2 "documents/output/170000-form.docx"
      = some buf ∧
    getFile (saveFile s "170000-form.docx" buf).2 "Results/170000-form.docx" = some buf ∧
    getFile (saveFile s "170000-form.docx" buf).2 "170000-form.docx" = some buf := by
  have hne : ∀ e ∈ s.fileContents, e.1 ≠ "memory://results/170000-form.docx" := by
    intro e he heq
    have hf := hfresh e he
    rw [heq] at hf
    exact (by decide :
      ¬ (strEndsWith "memory://results/170000-form.docx" "170000-form.docx" = false)) hf
  have hset : (saveFile s "170000-form.docx" buf).2.fileContents
      = s.fileContents ++ [("memory://results/170000-form.docx", buf)] :=
    mapSet_eq_append s.fileContents _ buf hne
  have hlook : mapLookup (saveFile s "170000-form.docx" buf).2.fileContents
      "memory://results/170000-form.docx" = some buf := by
    rw [hset, mapLookup_append_left_none _ _ _ hne]
    simp [mapLookup]
  refine ⟨rfl, ?_, ?_, ?_, ?_⟩
  · refine getFile_norm_hit _ _ _ (by decide) ?_
    rw [(by decide : normalizePath "memory://results/170000-form.docx"
      = "memory://results/170000-form.docx")]
    exact hlook
  · refine getFile_norm_hit _ _ _ (by decide) ?_
    rw [(by decide : normalizePath "documents/output/170000-form.docx"
      = "memory://results/170000-form.docx")]
    exact hlook
  · refine getFile_norm_hit _ _ _ (by decide) ?_
    rw [(by decide : normalizePath "Results/170000-form.docx"
      = "memory://results/170000-form.docx")]
    exact hlook
  · have hneb : ∀ e ∈ s.fileContents, e.1 ≠ "170000-form.docx" := by
      intro e he heq
      have hf := hfresh e he
      rw [heq] at hf
      exact (by decide : ¬ (strEndsWith "170000-form.docx" "170000-form.docx" = false)) hf
    unfold getFile
    rw [if_neg (by decide : ¬ (("170000-form.docx" : String) = ""))]
    have hnp : normalizePath "170000-form.docx" = "170000-form.docx" := by decide
    have hmiss : mapLookup (saveFile s "170000-form.docx" buf).2.fileContents
        "170000-form.docx" = none := by
      rw [hset, mapLookup_append_left_none _ _ _ hneb]
      have hnec : ¬ (("memory://results/170000-form.docx" : String) = "170000-form.docx") := by
        decide
      simp [mapLookup, hnec]
    have hfind : (saveFile s "170000-form.docx" buf).2.fileContents.find?
        (fun en => strEndsWith en.1 (basename "170000-form.docx"))
        = some ("memory://results/170000-form.docx", buf) := by
      have hb : basename "170000-form.docx" = "170000-form.docx" := by decide
      rw [hb, hset, find?_append_left_none _ _ _ hfresh]
      exact List.find?_cons_of_pos _ (by rfl)
    simp only [hnp, hmiss, hfind]

/-- Witness for C5 at the fresh store. -/
theorem c5_witness :
    (saveFile initialStorage "170000-form.docx" [9, 9]).1
      = "memory://results/170000-form.docx" ∧
    getFile (saveFile initialStorage "170000-form.docx" [9, 9]).2
      "memory://results/170000-form.docx" = some [9, 9] ∧
    getFile (saveFile initialStorage "170000-form.docx" [9, 9]).2
      "documents/output/170000-form.docx" = some [9, 9] ∧
    getFile (saveFile initialStorage "170000-form.docx" [9, 9]).2
      "Results/170000-form.docx" = some [9, 9] ∧
    getFile (saveFile initialStorage "170000-form.docx" [9, 9]).2
      "170000-form.docx" = some [9, 9] :=
  c5 initialStorage [9, 9] (by decide)

/-- Explicit form of deleteDocument on an absent id. -/
theorem deleteDocument_none (s : MemStorage) (id : Nat)
    (hm : mapLookup s.documents id = none) : deleteDocument s id = (false, s) := by
  unfold deleteDocument
  rw [hm]

/-- Explicit form of updateDocumentStatus on an absent id. -/
theorem updateStatus_none (s : MemStorage) (id : Nat) (st : String)
    (hm : mapLookup s.documents id = none) : updateDocumentStatus s id st = (false, s) := by
  unfold updateDocumentStatus
  rw [hm]

/-- Explicit form of updateDocumentStatus on a present id. -/
theorem updateStatus_some (s : MemStorage) (id : Nat) (st : String) (doc : Document)
    (hm : mapLookup s.documents id = some doc) :
    updateDocumentStatus s id st
      = (true, { s with documents := mapSet s.documents id ({ doc with status := some st }) }) := by
  unfold updateDocumentStatus
  rw [hm]

/-- Explicit form of updateProcessedDocument on an absent id. -/
theorem updateProcessed_none (s : MemStorage) (id : Nat) (st pp : String)
    (hm : mapLookup s.documents id = none) :
    updateProcessedDocument s id st pp = (false, s) := by
  unfold updateProcessedDocument
  rw [hm]

/-- Explicit form of the registry map after updateProcessedDocument on a present id. -/
theorem updateProcessed_some (s : MemStorage) (id : Nat) (st pp : String) (doc : Document)
    (hm : mapLookup s.documents id = some doc) :
    (updateProcessedDocument s id st pp).2.documents = mapSet s.documents id
      ({ doc with
          status := some st
          processedPath := some (if pp ≠ "" ∧ strStartsWith pp "documents/output/"
            then "memory://results/" ++ basename pp else pp) }) := by
  unfold updateProcessedDocument
  rw [hm]

/-- Running a sweep-free operation sequence adds exactly the number of creates to the id
counter. -/
theorem runOps_counter (s : MemStorage) (ops : List Op) :
    ops.all (fun op => !op.isSweep) = true →
    (runOps s ops).currentDocumentId = s.currentDocumentId + countCreates ops := by
  induction ops generalizing s with
  | nil => intro _; rfl
  | cons op rest ih =>
    intro h
    rw [List.all_cons, Bool.and_eq_true] at h
    rw [runOps]
    cases op with
    | create ins now =>
      rw [ih _ h.2]
      have hc : (applyOp s (Op.create ins now)).currentDocumentId
          = s.currentDocumentId + 1 := rfl
      rw [hc]
      simp [countCreates]
      omega
    | deleteDoc id =>
      rw [ih _ h.2]
      have hc : (applyOp s (Op.deleteDoc id)).currentDocumentId = s.currentDocumentId :=
        counter_deleteDocument s id
      rw [hc]
      simp [countCreates]
    | setStatus id st =>
      rw [ih _ h.2]
      have hc : (applyOp s (Op.setStatus id st)).currentDocumentId = s.currentDocumentId :=
        counter_updateStatus s id st
      rw [hc]
      simp [countCreates]
    | updateProcessed id st pp =>
      rw [ih _ h.2]
      have hc : (applyOp s (Op.updateProcessed id st pp)).currentDocumentId
          = s.currentDocumentId := counter_updateProcessed s id st pp
      rw [hc]
      simp [countCreates]
    | save n b =>
      rw [ih _ h.2]
      have hc : (applyOp s (Op.save n b)).currentDocumentId = s.currentDocumentId := rfl
      rw [hc]
      simp [countCreates]
    | sweep => simp [Op.isSweep] at h

/-- Every id created by a sweep-free run is at least the starting counter. -/
theorem createdIds_lb (s : MemStorage) (ops : List Op) :
    ops.all (fun op => !op.isSweep) = true →
    ∀ x ∈ createdIds s ops, s.currentDocumentId ≤ x := by
  induction ops generalizing s with
  | nil =>
    intro _ x hx
    simp [createdIds] at hx
  | cons op rest ih =>
    intro h x hx
    rw [List.all_cons, Bool.and_eq_true] at h
    cases op with
    | create ins now =>
      simp only [createdIds] at hx
      rcases List.mem_cons.mp hx with hx | hx
      · have hid : (createDocument s ins now).1.id = s.currentDocumentId := rfl
        rw [hx, hid]
      · have hle := ih _ h.2 x hx
        have hc : (createDocument s ins now).2.currentDocumentId
            = s.currentDocumentId + 1 := rfl
        rw [hc] at hle
        omega
    | deleteDoc id =>
      simp only [createdIds] at hx
      have hle := ih _ h.2 x hx
      have hc : (applyOp s (Op.deleteDoc id)).currentDocumentId = s.currentDocumentId :=
        counter_deleteDocument s id
      rw [hc] at hle
      exact hle
    | setStatus id st =>
      simp only [createdIds] at hx
      have hle := ih _ h.2 x hx
      have hc : (applyOp s (Op.setStatus id st)).currentDocumentId = s.currentDocumentId :=
        counter_updateStatus s id st
      rw [hc] at hle
      exact hle
    | updateProcessed id st pp =>
      simp only [createdIds] at hx
      have hle := ih _ h.2 x hx
      have hc : (applyOp s (Op.updateProcessed id st pp)).currentDocumentId
          = s.currentDocumentId := counter_updateProcessed s id st pp
      rw [hc] at hle
      exact hle
    | save n b =>
      simp only [createdIds] at hx
      have hle := ih _ h.2 x hx
      exact hle
    | sweep => simp [Op.isSweep] at h

/-- The ids created by a sweep-free run are strictly increasing (hence pairwise distinct). -/
theorem createdIds_pairwise (s : MemStorage) (ops : List Op) :
    ops.all (fun op => !op.isSweep) = true →
    List.Pairwise (fun a b => a < b) (createdIds s ops) := by
  induction ops generalizing s with
  | nil => intro _; simp [createdIds]
  | cons op rest ih =>
    intro h
    rw [List.all_cons, Bool.and_eq_true] at h
    cases op with
    | create ins now =>
      simp only [createdIds]
      refine List.Pairwise.cons ?_ (ih _ h.2)
      intro b hb
      have hlb := createdIds_lb _ rest h.2 b hb
      have hc : (createDocument s ins now).2.currentDocumentId
          = s.currentDocumentId + 1 := rfl
      rw [hc] at hlb
      have hid : (createDocument s ins now).1.id = s.currentDocumentId := rfl
      rw [hid]
      omega
    | deleteDoc id => simp only [createdIds]; exact ih _ h.2
    | setStatus id st => simp only [createdIds]; exact ih _ h.2
    | updateProcessed id st pp => simp only [createdIds]; exact ih _ h.2
    | save n b => simp only [createdIds]; exact ih _ h.2
    | sweep => simp [Op.isSweep] at h

/-- Every operation preserves the invariant that registry keys are below the id counter. -/
theorem idsBounded_applyOp (s : MemStorage) (op : Op) (h : idsBounded s) :
    idsBounded (applyOp s op) := by
  cases op with
  | create ins now =>
    intro p hp
    have hd : (applyOp s (Op.create ins now)).documents
        = mapSet s.documents s.currentDocumentId (createDocument s ins now).1 := rfl
    have hc : (applyOp s (Op.create ins now)).currentDocumentId
        = s.currentDocumentId + 1 := rfl
    rw [hd] at hp
    rw [hc]
    rcases mem_mapSet _ _ _ _ hp with h2 | h2
    · subst h2
      exact Nat.lt_succ_self _
    · exact Nat.lt_succ_of_lt (h p h2)
  | deleteDoc id =>
    cases hm : mapLookup s.documents id with
    | none =>
      have he : applyOp s (Op.deleteDoc id) = s := by
        show (deleteDocument s id).2 = s
        rw [deleteDocument_none s id hm]
      rw [he]
      exact h
    | some doc =>
      intro p hp
      have hd : (applyOp s (Op.deleteDoc id)).documents = mapDelete s.documents id := by
        show (deleteDocument s id).2.documents = _
        rw [deleteDocument_some s id doc hm]
      have hc : (applyOp s (Op.deleteDoc id)).currentDocumentId = s.currentDocumentId :=
        counter_deleteDocument s id
      rw [hd] at hp
      rw [hc]
      exact h p (mem_mapDelete _ _ _ hp)
  | setStatus id st =>
    cases hm : mapLookup s.documents id with
    | none =>
      have he : applyOp s (Op.setStatus id st) = s := by
        show (updateDocumentStatus s id st).2 = s
        rw [updateStatus_none s id st hm]
      rw [he]
      exact h
    | some doc =>
      intro p hp
      have hd : (applyOp s (Op.setStatus id st)).documents
          = mapSet s.documents id ({ doc with status := some st }) := by
        show (updateDocumentStatus s id st).2.documents = _
        rw [updateStatus_some s id st doc hm]
      have hc : (applyOp s (Op.setStatus id st)).currentDocumentId = s.currentDocumentId :=
        counter_updateStatus s id st
      rw [hd] at hp
      rw [hc]
      rcases mem_mapSet _ _ _ _ hp with h2 | h2
      · subst h2
        exact h (id, doc) (mapLookup_mem _ _ _ hm)
      · exact h p h2
  | updateProcessed id st pp =>
    cases hm : mapLookup s.documents id with
    | none =>
      have he : applyOp s (Op.updateProcessed id st pp) = s := by
        show (updateProcessedDocument s id st pp).2 = s
        rw [updateProcessed_none s id st pp hm]
      rw [he]
      exact h
    | some doc =>
      intro p hp
      have hd : (applyOp s (Op.updateProcessed id st pp)).documents
          = mapSet s.documents id ({ doc with
              status := some st
              processedPath := some (if pp ≠ "" ∧ strStartsWith pp "documents/output/"
                then "memory://results/" ++ basename pp else pp) }) :=
        updateProcessed_some s id st pp doc hm
      have hc : (applyOp s (Op.updateProcessed id st pp)).currentDocumentId
          = s.currentDocumentId := counter_updateProcessed s id st pp
      rw [hd] at hp
      rw [hc]
      rcases mem_mapSet _ _ _ _ hp with h2 | h2
      · subst h2
        exact h (id, doc) (mapLookup_mem _ _ _ hm)
      · exact h p h2
  | save n b =>
    intro p hp
    exact h p hp
  | sweep =>
    intro p hp
    have hd : (applyOp s Op.sweep).documents = [] := rfl
    rw [hd] at hp
    exact absurd hp (List.not_mem_nil p)

/-- Running any operation sequence preserves the key-below-counter invariant. -/
theorem idsBounded_runOps (s : MemStorage) (ops : List Op) (h : idsBounded s) :
    idsBounded (runOps s ops) := by
  induction ops generalizing s with
  | nil => exact h
  | cons op rest ih => exact ih _ (idsBounded_applyOp s op h)

/-- C8 counterexample: with a sweep between two creates, the second create hands out id 1
again, so ids are not strictly increasing across all operations within a process lifetime. -/
theorem c8_counterexample :
    createdIds initialStorage opsAcrossSweep = [1, 1] ∧
    ¬ List.Pairwise (fun a b => a < b) (createdIds initialStorage opsAcrossSweep) := by
  decide

/-- C8 amended: registry ids are unique and strictly increasing among the creates of any
sweep-free operation run, and starting from the fresh state a sweep-free run with at most
999 creates keeps every registry id below 1000, disjoint from the synthesized id bands;
however the sweep resets the id counter to 1, so ids repeat after a sweep. -/
theorem c8_amended (s : MemStorage) (ops : List Op)
    (hns : ops.all (fun op => !op.isSweep) = true) (hcount : countCreates ops ≤ 999) :
    List.Pairwise (fun a b => a < b) (createdIds s ops) ∧
    (∀ p ∈ (runOps initialStorage ops).documents, p.1 < 1000) ∧
    (clearInputAndOutputDirectories s).currentDocumentId = 1 := by
  refine ⟨createdIds_pairwise s ops hns, ?_, rfl⟩
  intro p hp
  have hb := idsBounded_runOps initialStorage ops
    (by intro q hq; simp [initialStorage] at hq) p hp
  have hcnt := runOps_counter initialStorage ops hns
  rw [hcnt] at hb
  have hinit : initialStorage.currentDocumentId = 1 := rfl
  rw [hinit] at hb
  omega

/-- Witness for C8 amended on a concrete sweep-free run. -/
theorem c8_amended_witness :
    List.Pairwise (fun a b => a < b) (createdIds initialStorage opsNoSweep) ∧
    (clearInputAndOutputDirectories initialStorage).currentDocumentId = 1 :=
  have h := c8_amended initialStorage opsNoSweep (by decide) (by decide)
  ⟨h.1, h.2.2⟩

/-- Documents of other ids are untouched by the error path of the process route. -/
theorem getDocument_processErrorPath_ne (s1 : MemStorage) (id : Nat) (refused : Bool)
    (msg : String) (j : Nat) (hj : j ≠ id) :
    getDocument (processErrorPath s1 id refused msg).store j = getDocument s1 j := by
  unfold processErrorPath
  by_cases hc : (refused || strContains msg "fetch failed") = true
  · rw [if_pos hc]
    exact getDocument_updateStatus_ne _ _ _ _ hj
  · rw [if_neg hc]
    rw [getDocument_updateStatus_ne _ _ _ _ hj, getDocument_updateStatus_ne _ _ _ _ hj]

/-- Documents of other ids are untouched by the post-suspension phase of the process route. -/
theorem getDocument_processPhase2_ne (s1 : MemStorage) (id : Nat) (ext : ExtOutcome)
    (j : Nat) (hj : j ≠ id) :
    getDocument (processPhase2 s1 id ext).store j = getDocument s1 j := by
  cases ext with
  | ok => rfl
  | notOk errField =>
    simp only [processPhase2]
    exact getDocument_processErrorPath_ne _ _ _ _ _ hj
  | thrown refused msg =>
    simp only [processPhase2]
    exact getDocument_processErrorPath_ne _ _ _ _ _ hj

/-- C9 counterexample: a reachable sequence of API operations — upload, set-status to error,
set-status to pending — moves an errored document back to pending, after which the process
route's guard accepts it again. -/
theorem c9_counterexample :
    ((getDocument storeAfterError 1).map (fun d => d.status) = some (some "error")) ∧
    (setStatusRoute storeAfterError 1 (some "pending")).resp.status = 200 ∧
    ((getDocument storeBackToPending 1).map (fun d => d.status) = some (some "pending")) ∧
    processPhase1 storeBackToPending 1
      = Phase1Result.dispatched (updateDocumentStatus storeBackToPending 1 "processing").2 := by
  decide

/-- C9 amended: the process route itself never moves any document to pending (a document
that is pending after the route already was, unchanged, before it), and there is no
automatic retry; but the set-status endpoint overwrites unconditionally, so a caller can
move an error or processed document back to pending, making it eligible for reprocessing. -/
theorem c9_amended :
    (∀ (s : MemStorage) (id : Nat) (ext : ExtOutcome) (j : Nat) (docAfter : Document),
      getDocument (processDocumentRoute s id ext).store j = some docAfter →
      docAfter.status = some "pending" →
      getDocument s j = some docAfter) ∧
    (∀ (s : MemStorage) (id : Nat) (doc : Document),
      getDocument s id = some doc →
      (doc.status = some "error" ∨ doc.status = some "processed") →
      (setStatusRoute s id (some "pending")).resp.status = 200 ∧
      getDocument (setStatusRoute s id (some "pending")).store id
        = some ({ doc with status := some "pending" })) := by
  constructor
  · intro s id ext j docAfter hafter hpend
    unfold processDocumentRoute at hafter
    cases hp1 : processPhase1 s id with
    | reply r =>
      rw [hp1] at hafter
      exact hafter
    | dispatched s1 =>
      rw [hp1] at hafter
      unfold processPhase1 at hp1
      cases hd0 : getDocument s id with
      | none =>
        simp only [hd0] at hp1
        exact absurd hp1 (by simp)
      | some doc0 =>
        simp only [hd0] at hp1
        by_cases hst : doc0.status = some "pending"
        · rw [if_neg (not_not_intro hst)] at hp1
          injection hp1 with hs1
          subst hs1
          by_cases hj : j = id
          · subst hj
            have hd1 := getDocument_updateStatus_self s j "processing" doc0 hd0
            cases ext with
            | ok =>
              simp only [processPhase2] at hafter
              rw [hd1] at hafter
              have hsp : docAfter.status = some "processing" := by
                injection hafter with h'
                rw [← h']
              rw [hsp] at hpend
              exact absurd hpend (by decide)
            | notOk errField =>
              simp only [processPhase2] at hafter
              have h2 := (processErrorPath_spec _ j false
                ("Python server error: " ++ errField.getD "Unknown error") _ hd1).2
              rw [h2] at hafter
              have hsp : docAfter.status = some "error" := by
                injection hafter with h'
                rw [← h']
              rw [hsp] at hpend
              exact absurd hpend (by decide)
            | thrown refused msg =>
              simp only [processPhase2] at hafter
              have h2 := (processErrorPath_spec _ j refused msg _ hd1).2
              rw [h2] at hafter
              have hsp : docAfter.status = some "error" := by
                injection hafter with h'
                rw [← h']
              rw [hsp] at hpend
              exact absurd hpend (by decide)
          · have hne2 : getDocument (processPhase2
                (updateDocumentStatus s id "processing").2 id ext).store j
                = getDocument s j := by
              rw [getDocument_processPhase2_ne _ _ _ _ hj,
                getDocument_updateStatus_ne _ _ _ _ hj]
            rw [hne2] at hafter
            exact hafter
        · rw [if_pos hst] at hp1
          exact absurd hp1 (by simp)
  · intro s id doc hdoc hterm
    have hupd := getDocument_updateStatus_self s id "pending" doc hdoc
    constructor
    · simp [setStatusRoute, hdoc, validStatuses]
    · simp only [setStatusRoute, hdoc]
      simp [validStatuses]
      exact hupd

/-- Witness for C9 amended: the process route left the second pending document exactly as it
was, and set-status moved a concrete errored document back to pending with a 200 reply. -/
theorem c9_amended_witness :
    getDocument storeTwoDocs 2 = some ({ docPending with id := 2 }) ∧
    (setStatusRoute storeError 1 (some "pending")).resp.status = 200 ∧
    getDocument (setStatusRoute storeError 1 (some "pending")).store 1
      = some ({ docError with status := some "pending" }) :=
  have h1 := c9_amended.1 storeTwoDocs 1 ExtOutcome.ok 2 ({ docPending with id := 2 })
    (by decide) (by decide)
  have h2 := c9_amended.2 storeError 1 docError (by decide) (Or.inl (by decide))
  ⟨h1, h2.1, h2.2⟩

end DocPortal
